import Mathlib

/-!
Shallow embedding of `player_ui.py` (ShairportSync-Pi-Console): the metadata
pipeline of `metadata_listener` (frame assembly, item decoding via regex
extraction, field routing through `ESSENTIAL_FIELDS`, base64 and UTF-8 payload
decoding, cover-art persistence) and the helpers `most_recent_cover` and the
lock-guarded shared `current_song` state.

Modelling conventions, stated once:
* Python byte strings become `List Nat` (each element < 256 in practice);
  Python text strings become Lean `String`.
* `re` digit class `\d` and `str.strip` whitespace are modelled over ASCII.
* `time.time()` values are abstract `Nat` timestamps supplied as arguments
  (`now` for `last_update` stamps, `nowMs` for `int(time.time() * 1000)`).
* The PIL image library is external to the repository; it is abstracted as a
  `PILModel` oracle: `Image.open` is determined by the decoded bytes and
  either fails or yields an `img.format`; `img.save` either fails or writes
  some byte content determined by the image bytes and the target extension.
* The filesystem cache directory is an association list of
  (filename, contents); a write conses, and `fsRead` sees the latest write.
-/

/-- The shared `current_song` dictionary of `player_ui.py` as a record. -/
structure SongState where
  track_name : Option String
  comment : Option String
  album : Option String
  picture_file : Option String
  last_update : Nat
deriving DecidableEq, Repr

/-- Initial `current_song` value (all fields `None`, `last_update = 0`). -/
def current_song_init : SongState :=
  { track_name := none, comment := none, album := none,
    picture_file := none, last_update := 0 }

/-- The `ESSENTIAL_FIELDS` table of `player_ui.py`, code → field name. -/
def ESSENTIAL_FIELDS : List (String × String) :=
  [("6d696e6d", "track_name"),
   ("61736370", "comment"),
   ("6173616c", "album"),
   ("50494354", "picture_data")]

/-- Dictionary lookup `ESSENTIAL_FIELDS[code]` (`none` = `not in`). -/
def lookupField (code : String) : Option String :=
  ESSENTIAL_FIELDS.lookup code

/-- The `COVER_ART_DIR` constant of `player_ui.py`. -/
def COVER_ART_DIR : String := "/tmp/shairport-sync/.cache/coverart"

/-- ASCII approximation of the whitespace set stripped by `str.strip()`. -/
def pyWhitespace (c : Char) : Bool :=
  c = ' ' || c = '\t' || c = '\n' || c = '\r' || c = Char.ofNat 11 || c = Char.ofNat 12

/-- Python `str.strip()`: remove leading and trailing whitespace. -/
def pyStrip (s : String) : String :=
  String.mk (((s.data.dropWhile pyWhitespace).reverse.dropWhile pyWhitespace).reverse)

/-- Python `str.lower()` restricted to ASCII case mapping. -/
def pyLower (s : String) : String :=
  String.mk (s.data.map Char.toLower)

/-- Strip an exact pattern from the front of the input, or fail. -/
def dropPat : List Char → List Char → Option (List Char)
  | [], s => some s
  | _ :: _, [] => none
  | p :: ps, c :: cs => if p = c then dropPat ps cs else none

/-- Longest leading run of ASCII digits, and the remainder. -/
def takeDigits : List Char → List Char × List Char
  | [] => ([], [])
  | c :: cs =>
    if c.isDigit then
      let r := takeDigits cs
      (c :: r.1, r.2)
    else ([], c :: cs)

/-- Value of an ASCII digit string, as computed by Python `int`. -/
def digitsToNat (ds : List Char) : Nat :=
  ds.foldl (fun n c => 10 * n + (c.toNat - 48)) 0

/-- Attempt to match `<length>(\d+)</length>` anchored at the head. -/
def matchLengthAt (s : List Char) : Option Nat :=
  match dropPat "<length>".data s with
  | none => none
  | some rest =>
    match takeDigits rest with
    | ([], _) => none
    | (d :: ds, rest2) =>
      match dropPat "</length>".data rest2 with
      | none => none
      | some _ => some (digitsToNat (d :: ds))

/-- `re.search(r"<length>(\d+)</length>", s)`: leftmost match, captured number. -/
def searchLength : List Char → Option Nat
  | [] => none
  | c :: cs =>
    match matchLengthAt (c :: cs) with
    | some n => some n
    | none => searchLength cs

/-- Lazy group `(.*?)` up to the first occurrence of `close`; `.` never
matches a newline, and absence of `close` is a failure. -/
def contentUpTo (close : List Char) : List Char → Option (List Char)
  | [] => none
  | c :: cs =>
    if close.isPrefixOf (c :: cs) then some []
    else if c = '\n' then none
    else
      match contentUpTo close cs with
      | none => none
      | some t => some (c :: t)

/-- `re.search` for a pattern `opn(.*?)close`: scan for the leftmost start
position where the literal `opn` matches and a close is reachable. -/
def searchTag (opn close : List Char) : List Char → Option (List Char)
  | [] => none
  | c :: cs =>
    match dropPat opn (c :: cs) with
    | some rest =>
      match contentUpTo close rest with
      | some g => some g
      | none => searchTag opn close cs
    | none => searchTag opn close cs

/-- The `<code>(.*?)</code>` extraction of `metadata_listener`. -/
def extractCode (buffer : List Char) : Option (List Char) :=
  searchTag "<code>".data "</code>".data buffer

/-- The `<data encoding="base64">(.*?)</data>` extraction. -/
def extractData (buffer : List Char) : Option (List Char) :=
  searchTag "<data encoding=\"base64\">".data "</data>".data buffer

/-! ### Python `base64.b64decode` (validate = False) -/

/-- Value of a character in the standard base64 alphabet (`None` = not in
the alphabet; `=` is handled separately by the decoder). -/
def b64Val (c : Char) : Option Nat :=
  let n := c.toNat
  if 65 ≤ n ∧ n ≤ 90 then some (n - 65)
  else if 97 ≤ n ∧ n ≤ 122 then some (n - 97 + 26)
  else if 48 ≤ n ∧ n ≤ 57 then some (n - 48 + 52)
  else if c = '+' then some 62
  else if c = '/' then some 63
  else none

/-- Three output bytes of a full quad of 6-bit values. -/
def quadBytes (a b c d : Nat) : List Nat :=
  [a * 4 + b / 16, (b % 16) * 16 + c / 4, (c % 4) * 64 + d]

/-- Output bytes of a final partial quad (2 or 3 data characters). -/
def leftoverBytes : List Nat → List Nat
  | [a, b] => [a * 4 + b / 16]
  | [a, b, c] => [a * 4 + b / 16, (b % 16) * 16 + c / 4]
  | _ => []

/-- CPython `binascii.a2b_base64` in non-strict mode: characters outside the
alphabet are skipped; a `=` completing a quad of ≥ 2 data characters ends
decoding with the leftover bytes emitted; a trailing incomplete quad is a
padding error. Arguments: input, current quad (6-bit values), consecutive
pad count, output accumulator. -/
def a2bB64 : List Char → List Nat → Nat → List Nat → Except String (List Nat)
  | [], quad, _, out =>
    if quad.length = 0 then Except.ok out
    else if quad.length = 1 then
      Except.error "Invalid base64-encoded string: number of data characters cannot be 1 more than a multiple of 4"
    else Except.error "Incorrect padding"
  | c :: cs, quad, pads, out =>
    if c = '=' then
      if 2 ≤ quad.length ∧ 4 ≤ quad.length + (pads + 1) then
        Except.ok (out ++ leftoverBytes quad)
      else a2bB64 cs quad (pads + 1) out
    else
      match b64Val c with
      | none => a2bB64 cs quad pads out
      | some v =>
        match quad ++ [v] with
        | [a, b, c2, d] => a2bB64 cs [] 0 (out ++ quadBytes a b c2 d)
        | quad2 => a2bB64 cs quad2 0 out

/-- `base64.b64decode(s)` on a `str`: the argument is first encoded as
ASCII (non-ASCII input raises `ValueError`), then decoded non-strictly. -/
def b64decode (s : String) : Except String (List Nat) :=
  if s.data.all (fun c => c.toNat ≤ 127) then a2bB64 s.data [] 0 []
  else Except.error "string argument should contain only ASCII characters"

/-! ### Python `bytes.decode("utf-8", errors="replace")` -/

/-- U+FFFD REPLACEMENT CHARACTER. -/
def replChar : Char := Char.ofNat 0xFFFD

/-- UTF-8 continuation byte test (0x80–0xBF). -/
def isCont (n : Nat) : Bool := 0x80 ≤ n && n ≤ 0xBF

/-- CPython's UTF-8 decoder with `errors="replace"`: well-formed sequences
(per Unicode Table 3-7, so no overlongs, surrogates, or values above
U+10FFFF) decode normally; each maximal subpart of an ill-formed sequence
is replaced by a single U+FFFD. Never fails. -/
def utf8DecodeReplace : List Nat → List Char
  | [] => []
  | b :: bs =>
    if b ≤ 0x7F then Char.ofNat b :: utf8DecodeReplace bs
    else if 0xC2 ≤ b ∧ b ≤ 0xDF then
      match bs with
      | [] => [replChar]
      | b1 :: bs1 =>
        if isCont b1 then
          Char.ofNat ((b - 0xC0) * 64 + (b1 - 0x80)) :: utf8DecodeReplace bs1
        else replChar :: utf8DecodeReplace (b1 :: bs1)
    else if 0xE0 ≤ b ∧ b ≤ 0xEF then
      let lo2 := if b = 0xE0 then 0xA0 else 0x80
      let hi2 := if b = 0xED then 0x9F else 0xBF
      match bs with
      | [] => [replChar]
      | b1 :: bs1 =>
        if lo2 ≤ b1 ∧ b1 ≤ hi2 then
          match bs1 with
          | [] => [replChar]
          | b2 :: bs2 =>
            if isCont b2 then
              Char.ofNat ((b - 0xE0) * 4096 + (b1 - 0x80) * 64 + (b2 - 0x80)) ::
                utf8DecodeReplace bs2
            else replChar :: utf8DecodeReplace (b2 :: bs2)
        else replChar :: utf8DecodeReplace (b1 :: bs1)
    else if 0xF0 ≤ b ∧ b ≤ 0xF4 then
      let lo2 := if b = 0xF0 then 0x90 else 0x80
      let hi2 := if b = 0xF4 then 0x8F else 0xBF
      match bs with
      | [] => [replChar]
      | b1 :: bs1 =>
        if lo2 ≤ b1 ∧ b1 ≤ hi2 then
          match bs1 with
          | [] => [replChar]
          | b2 :: bs2 =>
            if isCont b2 then
              match bs2 with
              | [] => [replChar]
              | b3 :: bs3 =>
                if isCont b3 then
                  Char.ofNat ((b - 0xF0) * 262144 + (b1 - 0x80) * 4096 +
                      (b2 - 0x80) * 64 + (b3 - 0x80)) :: utf8DecodeReplace bs3
                else replChar :: utf8DecodeReplace (b3 :: bs3)
            else replChar :: utf8DecodeReplace (b2 :: bs2)
        else replChar :: utf8DecodeReplace (b1 :: bs1)
    else replChar :: utf8DecodeReplace bs
termination_by l => l.length
decreasing_by all_goals simp_wf <;> omega

/-! ### Filesystem and PIL abstractions -/

/-- The cover-art cache directory as an association list
(filename → byte contents); the head is the most recent write. -/
abbrev FS := List (String × List Nat)

/-- A file write: creates or overwrites `name` (later reads see the head). -/
def fsWrite (fs : FS) (name : String) (content : List Nat) : FS :=
  (name, content) :: fs

/-- Read a file's current contents. -/
def fsRead (fs : FS) (name : String) : Option (List Nat) :=
  fs.lookup name

/-- Python `str.endswith`, computed over the character lists. -/
def pyEndsWith (s t : String) : Bool :=
  t.data.isSuffixOf s.data

/-- `os.path.join` for the shapes occurring here (relative second part). -/
def pathJoin (dir name : String) : String :=
  if dir = "" then name
  else if pyEndsWith dir "/" then dir ++ name
  else dir ++ "/" ++ name

/-- Abstraction of the PIL calls in `metadata_listener`. `Image.open` on
given decoded bytes either raises (`none`) or yields an image whose
`img.format` attribute is the inner `Option String`; `img.save` on the image
of those bytes, to a filename with extension `ext`, either raises (`none`)
or writes the returned byte contents. -/
structure PILModel where
  openFormat : List Nat → Option (Option String)
  saveBytes : List Nat → String → Option (List Nat)

/-- Messages printed by the two `except` handlers of `metadata_listener`. -/
inductive LogEvent where
  | imageError
  | decodeError
deriving DecidableEq, Repr

/-- The extension chosen at line 107 of `player_ui.py`:
`img.format.lower() if img.format else "jpg"`. -/
def extOfFormat (fmt : Option String) : String :=
  match fmt with
  | some f => pyLower f
  | none => "jpg"

/-- Lines 83–125 of `player_ui.py`: processing of a completed frame
(`buffer.endswith("</item>")` holds). Returns the new accumulation buffer
(reset on every path), the new `current_song` state, the new cache-directory
contents, and the log messages printed. `nowMs` is `int(time.time()*1000)`
at line 108 and `now` the `time.time()` stamp stored into `last_update`. -/
def handle_item (pil : PILModel) (nowMs now : Nat) (cover_dir : String)
    (buffer : String) (st : SongState) (fs : FS) :
    String × SongState × FS × List LogEvent :=
  let length := match searchLength buffer.data with
    | some n => n
    | none => 0
  if length = 0 then ("", st, fs, [])
  else
    match extractCode buffer.data, extractData buffer.data with
    | some code, some dat =>
      match lookupField (String.mk code) with
      | none => ("", st, fs, [])
      | some field_name =>
        match b64decode (String.mk dat) with
        | Except.error _ => ("", st, fs, [LogEvent.decodeError])
        | Except.ok decoded_bytes =>
          if field_name = "picture_data" then
            match pil.openFormat decoded_bytes with
            | none => ("", st, fs, [LogEvent.imageError])
            | some fmt =>
              let ext := extOfFormat fmt
              let img_file := pathJoin cover_dir
                ("cover_art_" ++ toString nowMs ++ "." ++ ext)
              match pil.saveBytes decoded_bytes ext with
              | none => ("", st, fs, [LogEvent.imageError])
              | some written =>
                ("", { st with picture_file := some img_file, last_update := now },
                  fsWrite fs img_file written, [])
          else
            let text := String.mk (utf8DecodeReplace decoded_bytes)
            let st1 :=
              if field_name = "track_name" then { st with track_name := some text }
              else if field_name = "comment" then { st with comment := some text }
              else if field_name = "album" then { st with album := some text }
              else st
            ("", { st1 with last_update := now }, fs, [])
    | _, _ => ("", st, fs, [])

/-- Lines 76–125 of `metadata_listener`: one iteration of the inner read
loop for a line that arrived: strip and append to the buffer, and process
the frame if the buffer now ends with the closing delimiter. -/
def metadata_listener_step (pil : PILModel) (nowMs now : Nat)
    (cover_dir : String) (buffer line : String) (st : SongState) (fs : FS) :
    String × SongState × FS × List LogEvent :=
  let buffer := buffer ++ pyStrip line
  if pyEndsWith buffer "</item>" then
    handle_item pil nowMs now cover_dir buffer st fs
  else (buffer, st, fs, [])

/-- Field read of the dict by name (only the three text fields). -/
def getTextField (st : SongState) (field_name : String) : Option String :=
  if field_name = "track_name" then st.track_name
  else if field_name = "comment" then st.comment
  else if field_name = "album" then st.album
  else none

/-! ### `most_recent_cover` -/

/-- One entry of `Path(cover_dir).iterdir()`: final filename and its
`st_mtime` (modelled as a `Nat`). -/
structure DirEntry where
  name : String
  mtime : Nat
deriving DecidableEq, Repr

/-- `pathlib.PurePath.suffix`: the final `.`-led extension, empty when the
last dot is at position 0 or at the very end or absent. -/
def pySuffix (name : String) : String :=
  let idxs := (name.data.enum.filter (fun p => p.2 == '.')).map Prod.fst
  match idxs.getLast? with
  | none => ""
  | some i =>
    if 0 < i ∧ i < name.data.length - 1 then String.mk (name.data.drop i) else ""

/-- The recognized image extension set at line 136 of `player_ui.py`. -/
def IMAGE_EXTS : List String := [".jpg", ".jpeg", ".png", ".gif", ".bmp"]

/-- The candidate filter: `f.suffix.lower() in (...)`. -/
def isCandidate (e : DirEntry) : Bool :=
  IMAGE_EXTS.contains (pyLower (pySuffix e.name))

/-- The descending `st_mtime` order used by
`candidates.sort(key=..., reverse=True)`. -/
def mtimeGE (a b : DirEntry) : Prop := b.mtime ≤ a.mtime

instance : DecidableRel mtimeGE := fun a b => Nat.decLe b.mtime a.mtime

/-- `most_recent_cover` of `player_ui.py`. The directory listing is
`none` when `p.exists()` is false, otherwise the entries of `iterdir()`.
Candidates are sorted by `st_mtime` descending; a stable insertion sort
under a total preorder produces the same list as Python's stable sort with
`reverse=True` (ties keep their original order). The first is returned. -/
def most_recent_cover (listing : Option (List DirEntry)) : Option String :=
  match listing with
  | none => none
  | some es =>
    let candidates := es.filter isCandidate
    match List.insertionSort mtimeGE candidates with
    | [] => none
    | e :: _ => some e.name

/-! ### Concrete fixtures shared by witnesses and counterexamples -/

/-- A PIL oracle whose `Image.open` always raises. -/
def pilNone : PILModel := ⟨fun _ => none, fun _ _ => none⟩

/-- A PIL oracle recognizing every payload as a PNG and saving it verbatim. -/
def pilPng : PILModel := ⟨fun _ => some (some "PNG"), fun b _ => some b⟩

/-- A completed frame carrying the track-title code and base64 of "Hello". -/
def helloFrame : String :=
  "<item><code>6d696e6d</code><length>5</length><data encoding=\"base64\">SGVsbG8=</data></item>"

/-- A completed frame with the picture code and payload bytes [1, 2, 3]. -/
def picFrameA : String :=
  "<item><code>50494354</code><length>3</length><data encoding=\"base64\">AQID</data></item>"

/-- A completed frame with the picture code and payload bytes [2, 3, 4]. -/
def picFrameB : String :=
  "<item><code>50494354</code><length>3</length><data encoding=\"base64\">AgME</data></item>"

/-! ### Claim theorems -/

/-- Claim C1: a completed frame whose code routes to a text field, whose
extracted length is positive, and whose base64 payload is present and
decodable, sets the routed field of `current_song` to the replacing UTF-8
decoding of the decoded bytes and advances `last_update`. -/
theorem text_field_update (pil : PILModel) (nowMs now : Nat) (dir : String)
    (buffer : String) (st : SongState) (fs : FS)
    (n : Nat) (code dat : List Char) (field_name : String) (bytes : List Nat)
    (hlen : searchLength buffer.data = some n) (hpos : 0 < n)
    (hcode : extractCode buffer.data = some code)
    (hfield : lookupField (String.mk code) = some field_name)
    (htext : field_name = "track_name" ∨ field_name = "comment" ∨ field_name = "album")
    (hdat : extractData buffer.data = some dat)
    (hb64 : b64decode (String.mk dat) = Except.ok bytes)
    (hadv : st.last_update < now) :
    getTextField (handle_item pil nowMs now dir buffer st fs).2.1 field_name
        = some (String.mk (utf8DecodeReplace bytes)) ∧
    st.last_update < (handle_item pil nowMs now dir buffer st fs).2.1.last_update := by
  have hne : n ≠ 0 := Nat.pos_iff_ne_zero.mp hpos
  rcases htext with h | h | h <;> subst h <;>
    simp [handle_item, hlen, hcode, hdat, hfield, hb64, hne, getTextField, hadv]

/-- Witness for C1: the "Hello" track-title frame yields
`track_name == "Hello"` with `last_update` advanced. -/
theorem text_field_update_witness :
    getTextField (handle_item pilNone 0 1 COVER_ART_DIR helloFrame current_song_init []).2.1
        "track_name" = some (String.mk (utf8DecodeReplace [72, 101, 108, 108, 111])) ∧
    current_song_init.last_update <
      (handle_item pilNone 0 1 COVER_ART_DIR helloFrame current_song_init []).2.1.last_update :=
  text_field_update pilNone 0 1 COVER_ART_DIR helloFrame current_song_init []
    5 "6d696e6d".data "SGVsbG8=".data "track_name" [72, 101, 108, 108, 111]
    (by decide) (by decide) (by decide) (by decide) (Or.inl rfl) (by decide)
    rfl (by decide)

/-- Claim C2: a completed frame with extracted length 0 (including a missing
or non-numeric length tag), or missing code or data tag, or a code outside
`ESSENTIAL_FIELDS`, leaves `current_song` and the cache directory unchanged,
resets the buffer, and prints nothing. -/
theorem dropped_frame_unchanged (pil : PILModel) (nowMs now : Nat) (dir : String)
    (buffer : String) (st : SongState) (fs : FS)
    (hdrop : (searchLength buffer.data).getD 0 = 0 ∨
      extractCode buffer.data = none ∨
      extractData buffer.data = none ∨
      ∃ code, extractCode buffer.data = some code ∧ lookupField (String.mk code) = none) :
    handle_item pil nowMs now dir buffer st fs = ("", st, fs, []) := by
  rcases hdrop with h | h | h | ⟨code, hc, hf⟩
  · cases hlen : searchLength buffer.data with
    | none => simp [handle_item, hlen]
    | some n =>
      rw [hlen] at h
      simp only [Option.getD_some] at h
      simp [handle_item, hlen, h]
  · cases hlen : searchLength buffer.data with
    | none => simp [handle_item, hlen]
    | some n =>
      by_cases hn : n = 0
      · simp [handle_item, hlen, hn]
      · simp [handle_item, hlen, hn, h]
  · cases hlen : searchLength buffer.data with
    | none => simp [handle_item, hlen]
    | some n =>
      by_cases hn : n = 0
      · simp [handle_item, hlen, hn]
      · cases hc : extractCode buffer.data with
        | none => simp [handle_item, hlen, hn, hc]
        | some code => simp [handle_item, hlen, hn, hc, h]
  · cases hlen : searchLength buffer.data with
    | none => simp [handle_item, hlen]
    | some n =>
      by_cases hn : n = 0
      · simp [handle_item, hlen, hn]
      · cases hd : extractData buffer.data with
        | none => simp [handle_item, hlen, hn, hc, hd]
        | some dat => simp [handle_item, hlen, hn, hc, hd, hf]

/-- Witness for C2: a frame with an unrecognized code changes nothing. -/
theorem dropped_frame_unchanged_witness :
    handle_item pilPng 7 3 COVER_ART_DIR
        "<item><code>99999999</code><length>3</length><data encoding=\"base64\">AQID</data></item>"
        current_song_init [] = ("", current_song_init, [], []) :=
  dropped_frame_unchanged pilPng 7 3 COVER_ART_DIR _ current_song_init []
    (Or.inr (Or.inr (Or.inr ⟨"99999999".data, by decide, by decide⟩)))

/-- Claim C5: when the base64 payload fails to decode, or a picture payload
fails image decoding or persistence, the failure is logged, every field of
`current_song` and the cache directory keep their previous values, and the
buffer is reset so the pipeline proceeds with the next frame. -/
theorem failure_state_retained (pil : PILModel) (nowMs now : Nat) (dir : String)
    (buffer : String) (st : SongState) (fs : FS)
    (n : Nat) (code dat : List Char) (field_name : String)
    (hlen : searchLength buffer.data = some n) (hpos : 0 < n)
    (hcode : extractCode buffer.data = some code)
    (hfield : lookupField (String.mk code) = some field_name)
    (hdat : extractData buffer.data = some dat)
    (hfail : (∃ msg, b64decode (String.mk dat) = Except.error msg) ∨
      (field_name = "picture_data" ∧
        ∃ bytes, b64decode (String.mk dat) = Except.ok bytes ∧
          (pil.openFormat bytes = none ∨
            ∃ fmt, pil.openFormat bytes = some fmt ∧
              pil.saveBytes bytes (extOfFormat fmt) = none))) :
    handle_item pil nowMs now dir buffer st fs = ("", st, fs, [LogEvent.decodeError]) ∨
    handle_item pil nowMs now dir buffer st fs = ("", st, fs, [LogEvent.imageError]) := by
  have hne : n ≠ 0 := Nat.pos_iff_ne_zero.mp hpos
  rcases hfail with ⟨msg, hb⟩ | ⟨hpic, bytes, hb, hifail⟩
  · exact Or.inl (by simp [handle_item, hlen, hne, hcode, hdat, hfield, hb])
  · subst hpic
    rcases hifail with hopen | ⟨fmt, hopen, hsave⟩
    · exact Or.inr (by simp [handle_item, hlen, hne, hcode, hdat, hfield, hb, hopen])
    · exact Or.inr (by simp [handle_item, hlen, hne, hcode, hdat, hfield, hb, hopen, hsave])

/-- Witness for C5: a picture frame whose `Image.open` raises leaves the
state untouched and logs the image error. -/
theorem failure_state_retained_witness :
    handle_item pilNone 7 3 COVER_ART_DIR picFrameA current_song_init []
        = ("", current_song_init, [], [LogEvent.decodeError]) ∨
    handle_item pilNone 7 3 COVER_ART_DIR picFrameA current_song_init []
        = ("", current_song_init, [], [LogEvent.imageError]) :=
  failure_state_retained pilNone 7 3 COVER_ART_DIR picFrameA current_song_init []
    3 "50494354".data "AQID".data "picture_data"
    (by decide) (by decide) (by decide) (by decide) (by decide)
    (Or.inr ⟨rfl, [1, 2, 3], rfl, Or.inl rfl⟩)

/-- Claim C7: whenever an incoming line completes a frame (the accumulated
buffer ends with the closing item delimiter), the next buffer is empty on
every control path of the item handler. -/
theorem buffer_reset_on_completion (pil : PILModel) (nowMs now : Nat) (dir : String)
    (buffer line : String) (st : SongState) (fs : FS)
    (hc : pyEndsWith (buffer ++ pyStrip line) "</item>" = true) :
    (metadata_listener_step pil nowMs now dir buffer line st fs).1 = "" := by
  simp only [metadata_listener_step, hc, if_true]
  unfold handle_item
  dsimp only
  repeat' split
  all_goals rfl

/-- Witness for C7: a line closing a partially accumulated frame resets the
buffer even though the frame decodes successfully. -/
theorem buffer_reset_on_completion_witness :
    (metadata_listener_step pilPng 7 3 COVER_ART_DIR
        "<item><code>6d696e6d</code><length>5</length><data encoding=\"base64\">SGVsbG8=</data>"
        "</item>" current_song_init []).1 = "" :=
  buffer_reset_on_completion pilPng 7 3 COVER_ART_DIR _ _ current_song_init [] (by decide)

/-- Claim C4: `last_update` is stamped with the current time on every
successful text-field or image update, and is left untouched by every other
path (zero-length, malformed or unrecognized frames, and frames whose
base64 decode, image decode, or persistence fails). -/
theorem last_update_iff_success (pil : PILModel) (nowMs now : Nat) (dir : String)
    (buffer : String) (st : SongState) (fs : FS)
    (hnow : st.last_update < now) :
    ((handle_item pil nowMs now dir buffer st fs).2.1.last_update ≠ st.last_update ↔
      ∃ n code dat field_name bytes,
        searchLength buffer.data = some n ∧ n ≠ 0 ∧
        extractCode buffer.data = some code ∧
        extractData buffer.data = some dat ∧
        lookupField (String.mk code) = some field_name ∧
        b64decode (String.mk dat) = Except.ok bytes ∧
        (field_name = "picture_data" →
          ∃ fmt written, pil.openFormat bytes = some fmt ∧
            pil.saveBytes bytes (extOfFormat fmt) = some written)) ∧
    ((handle_item pil nowMs now dir buffer st fs).2.1.last_update = st.last_update ∨
      (handle_item pil nowMs now dir buffer st fs).2.1.last_update = now) := by
  have hne : now ≠ st.last_update := (Nat.ne_of_lt hnow).symm
  cases hlen : searchLength buffer.data with
  | none => simp [handle_item, hlen]
  | some n =>
    by_cases hn : n = 0
    · simp [handle_item, hlen, hn]
    · cases hcode : extractCode buffer.data with
      | none => simp [handle_item, hlen, hn, hcode]
      | some code =>
        cases hdat : extractData buffer.data with
        | none => simp [handle_item, hlen, hn, hcode, hdat]
        | some dat =>
          cases hf : lookupField (String.mk code) with
          | none => simp [handle_item, hlen, hn, hcode, hdat, hf]
          | some field_name =>
            cases hb : b64decode (String.mk dat) with
            | error msg => simp [handle_item, hlen, hn, hcode, hdat, hf, hb]
            | ok bytes =>
              by_cases hpic : field_name = "picture_data"
              · subst hpic
                cases hopen : pil.openFormat bytes with
                | none => simp [handle_item, hlen, hn, hcode, hdat, hf, hb, hopen]
                | some fmt =>
                  cases hsave : pil.saveBytes bytes (extOfFormat fmt) with
                  | none => simp [handle_item, hlen, hn, hcode, hdat, hf, hb, hopen, hsave]
                  | some written =>
                    simp [handle_item, hlen, hn, hcode, hdat, hf, hb, hopen, hsave, hne]
              · simp [handle_item, hlen, hn, hcode, hdat, hf, hb, hpic, hne]

/-- Witness for C4: the "Hello" frame stamps `last_update := 1` from 0, and
the success condition holds at exactly the extracted values. -/
theorem last_update_iff_success_witness :
    ((handle_item pilNone 0 1 COVER_ART_DIR helloFrame current_song_init []).2.1.last_update ≠
        current_song_init.last_update ↔
      ∃ n code dat field_name bytes,
        searchLength helloFrame.data = some n ∧ n ≠ 0 ∧
        extractCode helloFrame.data = some code ∧
        extractData helloFrame.data = some dat ∧
        lookupField (String.mk code) = some field_name ∧
        b64decode (String.mk dat) = Except.ok bytes ∧
        (field_name = "picture_data" →
          ∃ fmt written, pilNone.openFormat bytes = some fmt ∧
            pilNone.saveBytes bytes (extOfFormat fmt) = some written)) ∧
    ((handle_item pilNone 0 1 COVER_ART_DIR helloFrame current_song_init []).2.1.last_update =
        current_song_init.last_update ∨
      (handle_item pilNone 0 1 COVER_ART_DIR helloFrame current_song_init []).2.1.last_update = 1) :=
  last_update_iff_success pilNone 0 1 COVER_ART_DIR helloFrame current_song_init [] (by decide)

/-- A PIL oracle recognizing every payload as a PNG whose `save` output is a
re-encoding that differs from the original bytes (as PIL's encoders
generally re-serialize rather than copy the input). -/
def pilReencode : PILModel := ⟨fun _ => some (some "PNG"), fun b _ => some (0 :: b)⟩

/-- Counterexample to C3 as stated: for the picture frame with decoded
payload bytes [1, 2, 3], the file created under
`cover_art_<nowMs>.png` holds the image library's `img.save` output, which
is not the decoded payload bytes. -/
theorem cover_art_contents_counterexample :
    b64decode "AQID" = Except.ok [1, 2, 3] ∧
    (handle_item pilReencode 7 3 COVER_ART_DIR picFrameA current_song_init []).2.1.picture_file
      = some "/tmp/shairport-sync/.cache/coverart/cover_art_7.png" ∧
    fsRead (handle_item pilReencode 7 3 COVER_ART_DIR picFrameA current_song_init []).2.2.1
        "/tmp/shairport-sync/.cache/coverart/cover_art_7.png" = some [0, 1, 2, 3] ∧
    fsRead (handle_item pilReencode 7 3 COVER_ART_DIR picFrameA current_song_init []).2.2.1
        "/tmp/shairport-sync/.cache/coverart/cover_art_7.png" ≠ some [1, 2, 3] := by
  refine ⟨rfl, rfl, rfl, ?_⟩
  decide

/-- Claim C3 (amended): a recognized picture frame creates the file
`cover_art_<epoch-millis>.<ext>` in the cache directory — `ext` the detected
format lowercased, or "jpg" when detection yields no format — whose contents
are the bytes produced by the image library's `img.save` re-encoding of the
decoded payload (not necessarily the payload bytes themselves), sets
`picture_file` to that path, and advances `last_update`. -/
theorem cover_art_saved (pil : PILModel) (nowMs now : Nat) (dir : String)
    (buffer : String) (st : SongState) (fs : FS)
    (n : Nat) (code dat : List Char) (bytes : List Nat)
    (fmt : Option String) (written : List Nat)
    (hlen : searchLength buffer.data = some n) (hpos : 0 < n)
    (hcode : extractCode buffer.data = some code)
    (hfield : lookupField (String.mk code) = some "picture_data")
    (hdat : extractData buffer.data = some dat)
    (hb64 : b64decode (String.mk dat) = Except.ok bytes)
    (hopen : pil.openFormat bytes = some fmt)
    (hsave : pil.saveBytes bytes (extOfFormat fmt) = some written)
    (hadv : st.last_update < now) :
    handle_item pil nowMs now dir buffer st fs =
      ("", { st with
              picture_file := some (pathJoin dir
                ("cover_art_" ++ toString nowMs ++ "." ++ extOfFormat fmt)),
              last_update := now },
        fsWrite fs (pathJoin dir ("cover_art_" ++ toString nowMs ++ "." ++ extOfFormat fmt))
          written, []) ∧
    fsRead (handle_item pil nowMs now dir buffer st fs).2.2.1
        (pathJoin dir ("cover_art_" ++ toString nowMs ++ "." ++ extOfFormat fmt))
      = some written ∧
    st.last_update < (handle_item pil nowMs now dir buffer st fs).2.1.last_update := by
  have hne : n ≠ 0 := Nat.pos_iff_ne_zero.mp hpos
  refine ⟨?_, ?_, ?_⟩ <;>
    simp [handle_item, hlen, hne, hcode, hdat, hfield, hb64, hopen, hsave, fsWrite, fsRead, hadv]

/-- Witness for C3 (amended): the [1, 2, 3] picture frame under the verbatim
PNG oracle creates `cover_art_7.png` holding the saved bytes. -/
theorem cover_art_saved_witness :
    handle_item pilPng 7 3 COVER_ART_DIR picFrameA current_song_init [] =
      ("", { current_song_init with
              picture_file := some (pathJoin COVER_ART_DIR
                ("cover_art_" ++ toString 7 ++ "." ++ extOfFormat (some "PNG"))),
              last_update := 3 },
        fsWrite [] (pathJoin COVER_ART_DIR
          ("cover_art_" ++ toString 7 ++ "." ++ extOfFormat (some "PNG"))) [1, 2, 3], []) ∧
    fsRead (handle_item pilPng 7 3 COVER_ART_DIR picFrameA current_song_init []).2.2.1
        (pathJoin COVER_ART_DIR ("cover_art_" ++ toString 7 ++ "." ++ extOfFormat (some "PNG")))
      = some [1, 2, 3] ∧
    current_song_init.last_update <
      (handle_item pilPng 7 3 COVER_ART_DIR picFrameA current_song_init []).2.1.last_update :=
  cover_art_saved pilPng 7 3 COVER_ART_DIR picFrameA current_song_init []
    3 "50494354".data "AQID".data [1, 2, 3] (some "PNG") [1, 2, 3]
    (by decide) (by decide) (by decide) (by decide) (by decide) rfl rfl rfl (by decide)

instance : IsTotal DirEntry mtimeGE := ⟨fun a b => Nat.le_total b.mtime a.mtime⟩

instance : IsTrans DirEntry mtimeGE := ⟨fun _ _ _ h1 h2 => Nat.le_trans h2 h1⟩

/-- Claim C6: `most_recent_cover` returns the name of a candidate (a listed
file with recognized image extension) whose modification time is greatest
among all candidates, and returns `none` exactly when the directory is
missing or holds no candidate. -/
theorem most_recent_cover_correct (listing : Option (List DirEntry)) :
    (most_recent_cover listing = none ↔
      listing = none ∨ ∃ es, listing = some es ∧ es.filter isCandidate = []) ∧
    (∀ es nm, listing = some es → most_recent_cover listing = some nm →
      ∃ e, e ∈ es.filter isCandidate ∧ e.name = nm ∧
        ∀ e', e' ∈ es.filter isCandidate → e'.mtime ≤ e.mtime) := by
  cases listing with
  | none =>
    refine ⟨by simp [most_recent_cover], ?_⟩
    intro es nm heq
    exact absurd heq (by simp)
  | some es =>
    have hperm := List.perm_insertionSort mtimeGE (es.filter isCandidate)
    cases hs : List.insertionSort mtimeGE (es.filter isCandidate) with
    | nil =>
      rw [hs] at hperm
      have hemp : es.filter isCandidate = [] := hperm.nil_eq.symm
      refine ⟨?_, ?_⟩
      · simp only [most_recent_cover, hs]
        simp only [List.filter_eq_nil_iff] at hemp
        simp only [Bool.not_eq_true] at hemp
        simp
        exact hemp
      · intro es' nm heq hmr
        injection heq with h'
        subst h'
        simp [most_recent_cover, hs] at hmr
    | cons e rest =>
      rw [hs] at hperm
      have hsorted := List.sorted_insertionSort mtimeGE (es.filter isCandidate)
      rw [hs] at hsorted
      refine ⟨?_, ?_⟩
      · constructor
        · intro h
          simp [most_recent_cover, hs] at h
        · rintro (h | ⟨es', heq, hemp⟩)
          · exact absurd h (by simp)
          · injection heq with h'
            subst h'
            rw [hemp] at hperm
            simpa using hperm.length_eq
      · intro es' nm heq hmr
        injection heq with h'
        subst h'
        have hnm : e.name = nm := by
          simpa [most_recent_cover, hs] using hmr
        refine ⟨e, hperm.mem_iff.mp (List.mem_cons_self e rest), hnm, ?_⟩
        intro e' he'
        rcases List.mem_cons.mp (hperm.mem_iff.mpr he') with h | h
        · subst h
          exact Nat.le_refl _
        · exact List.rel_of_sorted_cons hsorted e' h

/-- A directory listing with one tie and one unrecognized extension. -/
def coverListing : List DirEntry := [⟨"a.txt", 9⟩, ⟨"b.PNG", 3⟩, ⟨"c.jpg", 5⟩, ⟨"d.jpeg", 5⟩]

/-- Witness for C6: on the concrete listing the returned file `c.jpg` is a
candidate of maximal modification time (the `.txt` entry is ignored). -/
theorem most_recent_cover_correct_witness :
    ∃ e, e ∈ coverListing.filter isCandidate ∧ e.name = "c.jpg" ∧
      ∀ e', e' ∈ coverListing.filter isCandidate → e'.mtime ≤ e.mtime :=
  (most_recent_cover_correct (some coverListing)).2 coverListing "c.jpg" rfl (by decide)

/-- The file write performed by one completed frame, if any. The branch
taken by `handle_item` and the written pair depend only on the frame text,
the timestamp and the image oracle, so they are computed against the empty
state and directory. -/
def itemWrite (pil : PILModel) (dir : String) (it : String × Nat × Nat) :
    Option (String × List Nat) :=
  match (handle_item pil it.2.1 it.2.2 dir it.1 current_song_init []).2.2.1 with
  | [] => none
  | w :: _ => some w

/-- Processing a sequence of completed frames in order, threading state and
directory contents. -/
def run_items (pil : PILModel) (dir : String) :
    List (String × Nat × Nat) → SongState → FS → SongState × FS
  | [], st, fs => (st, fs)
  | it :: rest, st, fs =>
    let r := handle_item pil it.2.1 it.2.2 dir it.1 st fs
    run_items pil dir rest r.2.1 r.2.2.1

/-- The directory contents after one frame: unchanged, or the frame's own
write consed on — independently of the incoming state and contents. -/
theorem handle_item_fs (pil : PILModel) (nowMs now : Nat) (dir : String)
    (buffer : String) (st : SongState) (fs : FS) :
    (handle_item pil nowMs now dir buffer st fs).2.2.1 =
      match itemWrite pil dir (buffer, nowMs, now) with
      | none => fs
      | some w => w :: fs := by
  cases hlen : searchLength buffer.data with
  | none => simp [handle_item, itemWrite, hlen]
  | some n =>
    by_cases hn : n = 0
    · simp [handle_item, itemWrite, hlen, hn]
    · cases hcode : extractCode buffer.data with
      | none => simp [handle_item, itemWrite, hlen, hn, hcode]
      | some code =>
        cases hdat : extractData buffer.data with
        | none => simp [handle_item, itemWrite, hlen, hn, hcode, hdat]
        | some dat =>
          cases hf : lookupField (String.mk code) with
          | none => simp [handle_item, itemWrite, hlen, hn, hcode, hdat, hf]
          | some field_name =>
            cases hb : b64decode (String.mk dat) with
            | error msg => simp [handle_item, itemWrite, hlen, hn, hcode, hdat, hf, hb]
            | ok bytes =>
              by_cases hpic : field_name = "picture_data"
              · subst hpic
                cases hopen : pil.openFormat bytes with
                | none => simp [handle_item, itemWrite, hlen, hn, hcode, hdat, hf, hb, hopen]
                | some fmt =>
                  cases hsave : pil.saveBytes bytes (extOfFormat fmt) with
                  | none =>
                    simp [handle_item, itemWrite, hlen, hn, hcode, hdat, hf, hb, hopen, hsave]
                  | some written =>
                    simp [handle_item, itemWrite, hlen, hn, hcode, hdat, hf, hb, hopen, hsave,
                      fsWrite]
              · simp [handle_item, itemWrite, hlen, hn, hcode, hdat, hf, hb, hpic]

/-- The directory contents after a sequence of frames: all the frames'
writes, most recent first, in front of the initial contents. -/
theorem run_items_fs (pil : PILModel) (dir : String)
    (items : List (String × Nat × Nat)) :
    ∀ st fs, (run_items pil dir items st fs).2 =
      (items.filterMap (itemWrite pil dir)).reverse ++ fs := by
  induction items with
  | nil => intro st fs; simp [run_items]
  | cons it rest ih =>
    intro st fs
    simp only [run_items]
    rw [ih, handle_item_fs pil it.2.1 it.2.2 dir it.1 st fs]
    cases hw : itemWrite pil dir it with
    | none => simp [List.filterMap_cons, hw]
    | some w => simp [List.filterMap_cons, hw]

/-- Association lookup across an append: the left part wins when it has
the key. -/
theorem fs_lookup_append (L M : FS) (nm : String) :
    (L ++ M).lookup nm =
      match L.lookup nm with
      | some v => some v
      | none => M.lookup nm := by
  induction L with
  | nil => simp [List.lookup]
  | cons p L ih =>
    obtain ⟨k, v⟩ := p
    cases hc : nm == k with
    | true => simp [List.lookup, hc]
    | false => simp [List.lookup, hc, ih]

/-- A successful lookup means the key occurs in the key list. -/
theorem lookup_some_mem_keys (L : FS) (nm : String) (v : List Nat)
    (h : L.lookup nm = some v) : nm ∈ L.map Prod.fst := by
  induction L with
  | nil => simp [List.lookup] at h
  | cons p L ih =>
    obtain ⟨k, w⟩ := p
    cases hc : nm == k with
    | true =>
      have : nm = k := by simpa using hc
      simp [this]
    | false =>
      simp only [List.lookup, hc] at h
      exact List.mem_cons_of_mem _ (ih h)

/-- With nodup keys, every stored pair is found by lookup. -/
theorem nodup_keys_lookup (L : FS) (w : String × List Nat)
    (hnd : (L.map Prod.fst).Nodup) (hw : w ∈ L) : L.lookup w.1 = some w.2 := by
  induction L with
  | nil => cases hw
  | cons p L ih =>
    rcases List.mem_cons.mp hw with h | h
    · subst h
      simp [List.lookup]
    · have hk : w.1 ∈ L.map Prod.fst := List.mem_map_of_mem Prod.fst h
      have hne : w.1 ≠ p.1 := by
        intro he
        exact (List.nodup_cons.mp (by simpa using hnd)).1 (he ▸ hk)
      have hc : (w.1 == p.1) = false := by simpa using hne
      simp only [List.map_cons, List.nodup_cons] at hnd
      obtain ⟨k, v⟩ := p
      simp only [List.lookup, hc]
      exact ih hnd.2 h

/-- Counterexample to C8 as stated: two picture frames processed within the
same millisecond (equal `int(time.time()*1000)` stamps) and with the same
detected format produce the same `cover_art_7.png` filename, so the second
save targets a filename that already exists and replaces the first save's
contents [1, 2, 3] with [2, 3, 4]. -/
theorem cover_art_overwrite_counterexample :
    itemWrite pilPng COVER_ART_DIR (picFrameA, 7, 1)
      = some ("/tmp/shairport-sync/.cache/coverart/cover_art_7.png", [1, 2, 3]) ∧
    itemWrite pilPng COVER_ART_DIR (picFrameB, 7, 2)
      = some ("/tmp/shairport-sync/.cache/coverart/cover_art_7.png", [2, 3, 4]) ∧
    fsRead (run_items pilPng COVER_ART_DIR [(picFrameA, 7, 1)] current_song_init []).2
        "/tmp/shairport-sync/.cache/coverart/cover_art_7.png" = some [1, 2, 3] ∧
    fsRead (run_items pilPng COVER_ART_DIR
          [(picFrameA, 7, 1), (picFrameB, 7, 2)] current_song_init []).2
        "/tmp/shairport-sync/.cache/coverart/cover_art_7.png" = some [2, 3, 4] :=
  ⟨rfl, rfl, rfl, rfl⟩

/-- Claim C8 (amended): cover-art filenames are built solely from the
millisecond timestamp and detected extension, with no uniqueness check;
provided the generated filenames of a frame sequence are pairwise distinct
and absent from the initial cache directory — which holds whenever the
millisecond stamps of the saves differ and no prior `cover_art` file
collides — every pre-existing file keeps its contents and every save
remains readable with exactly the bytes it wrote; two saves in the same
millisecond with the same extension violate this (see the counterexample). -/
theorem cover_art_fresh_no_overwrite (pil : PILModel) (dir : String)
    (items : List (String × Nat × Nat)) (st : SongState) (fs : FS)
    (hnd : ((items.filterMap (itemWrite pil dir)).map Prod.fst).Nodup)
    (hfresh : ∀ nm ∈ (items.filterMap (itemWrite pil dir)).map Prod.fst,
      fs.lookup nm = none) :
    (∀ nm v, fs.lookup nm = some v →
      fsRead (run_items pil dir items st fs).2 nm = some v) ∧
    (∀ w ∈ items.filterMap (itemWrite pil dir),
      fsRead (run_items pil dir items st fs).2 w.1 = some w.2) := by
  have hfs := run_items_fs pil dir items st fs
  constructor
  · intro nm v hv
    rw [fsRead, hfs, fs_lookup_append]
    cases hL : (items.filterMap (itemWrite pil dir)).reverse.lookup nm with
    | none => exact hv
    | some u =>
      exfalso
      have hkey := lookup_some_mem_keys _ nm u hL
      rw [List.map_reverse, List.mem_reverse] at hkey
      rw [hfresh nm hkey] at hv
      cases hv
  · intro w hw
    rw [fsRead, hfs, fs_lookup_append]
    have hndr : ((items.filterMap (itemWrite pil dir)).reverse.map Prod.fst).Nodup := by
      rw [List.map_reverse]
      exact List.nodup_reverse.mpr hnd
    have := nodup_keys_lookup _ w hndr (List.mem_reverse.mpr hw)
    rw [this]

/-- Witness for C8 (amended): two picture frames in distinct milliseconds
leave an unrelated pre-existing file intact and both saves readable. -/
theorem cover_art_fresh_no_overwrite_witness :
    fsRead (run_items pilPng COVER_ART_DIR [(picFrameA, 7, 1), (picFrameB, 8, 2)]
        current_song_init [("old.png", [9])]).2 "old.png" = some [9] ∧
    fsRead (run_items pilPng COVER_ART_DIR [(picFrameA, 7, 1), (picFrameB, 8, 2)]
        current_song_init [("old.png", [9])]).2
      "/tmp/shairport-sync/.cache/coverart/cover_art_7.png" = some [1, 2, 3] ∧
    fsRead (run_items pilPng COVER_ART_DIR [(picFrameA, 7, 1), (picFrameB, 8, 2)]
        current_song_init [("old.png", [9])]).2
      "/tmp/shairport-sync/.cache/coverart/cover_art_8.png" = some [2, 3, 4] :=
  ⟨(cover_art_fresh_no_overwrite pilPng COVER_ART_DIR
      [(picFrameA, 7, 1), (picFrameB, 8, 2)] current_song_init [("old.png", [9])]
      (by decide) (by decide)).1 "old.png" [9] rfl,
   (cover_art_fresh_no_overwrite pilPng COVER_ART_DIR
      [(picFrameA, 7, 1), (picFrameB, 8, 2)] current_song_init [("old.png", [9])]
      (by decide) (by decide)).2
     ("/tmp/shairport-sync/.cache/coverart/cover_art_7.png", [1, 2, 3]) (by decide),
   (cover_art_fresh_no_overwrite pilPng COVER_ART_DIR
      [(picFrameA, 7, 1), (picFrameB, 8, 2)] current_song_init [("old.png", [9])]
      (by decide) (by decide)).2
     ("/tmp/shairport-sync/.cache/coverart/cover_art_8.png", [2, 3, 4]) (by decide)⟩

/-- The characters the non-strict base64 decoder reacts to: alphabet
characters and the padding character; everything else is skipped. -/
def b64Keep (c : Char) : Bool := (b64Val c).isSome || c == '='

/-- Skipped characters are invisible to the decoder: decoding any input
equals decoding its restriction to alphabet-plus-padding characters. -/
theorem a2bB64_filter (d : List Char) : ∀ quad pads out,
    a2bB64 d quad pads out = a2bB64 (d.filter b64Keep) quad pads out := by
  induction d with
  | nil => intro quad pads out; rfl
  | cons c cs ih =>
    intro quad pads out
    by_cases hpad : c = '='
    · subst hpad
      rw [List.filter_cons_of_pos (by simp [b64Keep])]
      by_cases hc : 2 ≤ quad.length ∧ 4 ≤ quad.length + (pads + 1)
      · simp [a2bB64, hc]
      · simp only [a2bB64, if_pos rfl, if_neg hc]
        exact ih quad (pads + 1) out
    · cases hv : b64Val c with
      | none =>
        rw [List.filter_cons_of_neg (by simp [b64Keep, hv, hpad])]
        simp only [a2bB64, if_neg hpad, hv]
        exact ih quad pads out
      | some v =>
        rw [List.filter_cons_of_pos (by simp [b64Keep, hv])]
        simp only [a2bB64, if_neg hpad, hv]
        rcases quad with _ | ⟨a, _ | ⟨b, _ | ⟨c2, _ | ⟨e, rest⟩⟩⟩⟩
        · exact ih [v] 0 out
        · exact ih [a, v] 0 out
        · exact ih [a, b, v] 0 out
        · exact ih [] 0 (out ++ quadBytes a b c2 v)
        · cases rest with
          | nil => exact ih [a, b, c2, e, v] 0 out
          | cons r rs => exact ih (a :: b :: c2 :: e :: r :: (rs ++ [v])) 0 out

/-- A frame whose base64 payload ends in a non-ASCII character. -/
def accentFrame : String :=
  "<item><code>6d696e6d</code><length>5</length><data encoding=\"base64\">SGVsbG8=é</data></item>"

/-- Counterexample to C10 as stated: the payload "SGVsbG8=é" contains a
character outside the base64 alphabet whose surviving characters decode
fine, yet the item takes the error path (state retained, decode error
logged) rather than updating the field, because `b64decode` on a `str`
rejects any non-ASCII character before the skipping decoder runs. -/
theorem b64_nonascii_counterexample :
    extractData accentFrame.data = some "SGVsbG8=é".data ∧
    (∃ c ∈ "SGVsbG8=é".data, (b64Val c).isNone ∧ 127 < c.toNat) ∧
    b64decode (String.mk ("SGVsbG8=é".data.filter b64Keep))
      = Except.ok [72, 101, 108, 108, 111] ∧
    handle_item pilPng 7 3 COVER_ART_DIR accentFrame current_song_init []
      = ("", current_song_init, [], [LogEvent.decodeError]) := by
  refine ⟨by decide, ⟨'é', by decide, by decide, by decide⟩, rfl, rfl⟩

/-- Claim C10 (amended): non-alphabet characters that are ASCII are ignored
by the non-validating base64 decode — decoding equals decoding the payload
restricted to alphabet-plus-padding characters, so for all-ASCII payloads
decoding fails only when the surviving characters have invalid
length/padding — but a payload containing any non-ASCII character fails the
decode outright (error path, state retained). -/
theorem b64_nonalphabet_ignored (s : String)
    (hascii : ∀ c ∈ s.data, c.toNat ≤ 127) :
    b64decode s = b64decode (String.mk (s.data.filter b64Keep)) ∧
    (∀ t : String, (∃ c ∈ t.data, ¬ c.toNat ≤ 127) →
      b64decode t = Except.error "string argument should contain only ASCII characters") := by
  constructor
  · have h1 : s.data.all (fun c => decide (c.toNat ≤ 127)) = true := by
      rw [List.all_eq_true]
      intro c hc
      exact decide_eq_true (hascii c hc)
    have h2 : (s.data.filter b64Keep).all (fun c => decide (c.toNat ≤ 127)) = true := by
      rw [List.all_eq_true]
      intro c hc
      exact decide_eq_true (hascii c (List.mem_of_mem_filter hc))
    rw [b64decode, b64decode]
    rw [if_pos h1]
    rw [if_pos h2]
    exact a2bB64_filter s.data [] 0 []
  · rintro t ⟨c, hc, hbig⟩
    rw [b64decode, if_neg]
    intro hall
    rw [List.all_eq_true] at hall
    exact hbig (of_decide_eq_true (hall c hc))

/-- Witness for C10 (amended): a payload with a space and a `!` decodes as
if they were absent, and a non-ASCII payload fails the decode. -/
theorem b64_nonalphabet_ignored_witness :
    b64decode "SGV !sbG8=" = b64decode (String.mk ("SGV !sbG8=".data.filter b64Keep)) ∧
    b64decode "é" = Except.error "string argument should contain only ASCII characters" :=
  ⟨(b64_nonalphabet_ignored "SGV !sbG8=" (by decide)).1,
   (b64_nonalphabet_ignored "SGV !sbG8=" (by decide)).2 "é" ⟨'é', by decide, by decide⟩⟩

/-! ### Claim C9: lock-guarded snapshots (lines 62, 111–120, 192–197) -/

/-- One complete update performed by the metadata thread inside one
`with buffer_lock` block: a text-field or picture assignment followed by
the `last_update` stamp — two separate dictionary writes. -/
inductive Upd where
  | text (field_name : String) (value : String) (t : Nat)
  | pict (path : String) (t : Nat)
deriving DecidableEq, Repr

/-- The first assignment of an update (line 112 or 119). -/
def applyFirst (u : Upd) (st : SongState) : SongState :=
  match u with
  | Upd.text f v _ =>
    if f = "track_name" then { st with track_name := some v }
    else if f = "comment" then { st with comment := some v }
    else if f = "album" then { st with album := some v }
    else st
  | Upd.pict p _ => { st with picture_file := some p }

/-- The second assignment (line 113 or 120): the `last_update` stamp. -/
def applySecond (u : Upd) (st : SongState) : SongState :=
  match u with
  | Upd.text _ _ t => { st with last_update := t }
  | Upd.pict _ t => { st with last_update := t }

/-- A whole update, both assignments. -/
def applyUpd (st : SongState) (u : Upd) : SongState :=
  applySecond u (applyFirst u st)

/-- The state after a list of complete updates. -/
def applyAll (st0 : SongState) (us : List Upd) : SongState :=
  us.foldl applyUpd st0

/-- Who holds `buffer_lock`. -/
inductive Holder where
  | free
  | writer
  | reader
deriving DecidableEq, Repr

/-- Interleaving configuration: the shared dict, the lock, the metadata
thread's remaining updates and program counter (0 idle, 1 lock acquired,
2 field written, 3 stamp written), and the UI thread's program counter
(0 idle, 1 lock acquired, 2–6 after copying that many fields, 7 done)
with its partially copied snapshot of lines 192–197. -/
structure Cfg where
  song : SongState
  lock : Holder
  pending : List Upd
  wpc : Nat
  rpc : Nat
  track : Option (Option String)
  artist : Option (Option String)
  album : Option (Option String)
  pict : Option (Option String)
  lu : Option Nat
deriving DecidableEq, Repr

/-- One step of the metadata (writer) thread; a blocked thread leaves the
configuration unchanged. -/
def stepW (c : Cfg) : Cfg :=
  if c.wpc = 0 then
    match c.pending with
    | [] => c
    | _ :: _ =>
      if c.lock = Holder.free then { c with lock := Holder.writer, wpc := 1 } else c
  else if c.wpc = 1 then
    match c.pending with
    | [] => c
    | u :: _ => { c with song := applyFirst u c.song, wpc := 2 }
  else if c.wpc = 2 then
    match c.pending with
    | [] => c
    | u :: _ => { c with song := applySecond u c.song, wpc := 3 }
  else
    match c.pending with
    | [] => c
    | _ :: rest => { c with lock := Holder.free, wpc := 0, pending := rest }

/-- One step of the UI (reader) thread: acquire, copy the five fields one
by one, release. -/
def stepR (c : Cfg) : Cfg :=
  if c.rpc = 0 then
    if c.lock = Holder.free then { c with lock := Holder.reader, rpc := 1 } else c
  else if c.rpc = 1 then { c with track := some c.song.track_name, rpc := 2 }
  else if c.rpc = 2 then { c with artist := some c.song.comment, rpc := 3 }
  else if c.rpc = 3 then { c with album := some c.song.album, rpc := 4 }
  else if c.rpc = 4 then { c with pict := some c.song.picture_file, rpc := 5 }
  else if c.rpc = 5 then { c with lu := some c.song.last_update, rpc := 6 }
  else if c.rpc = 6 then { c with lock := Holder.free, rpc := 7 }
  else c

/-- Run a schedule (`true` = writer step, `false` = reader step). -/
def runSched (c : Cfg) : List Bool → Cfg
  | [] => c
  | b :: s => runSched (if b then stepW c else stepR c) s

/-- Initial configuration: shared state `st0`, updates `us` to perform,
both threads idle, lock free, nothing copied. -/
def initCfg (st0 : SongState) (us : List Upd) : Cfg :=
  { song := st0, lock := Holder.free, pending := us, wpc := 0, rpc := 0,
    track := none, artist := none, album := none, pict := none, lu := none }

/-- The inductive invariant: the writer is at a known point of a known
update prefix, holding the lock whenever it is mid-update, and the reader
either is idle, or holds the lock with its copied-so-far fields matching
the (then frozen) shared dict, or is done with a snapshot equal to the
state after some whole number of complete updates. -/
def CfgInv (st0 : SongState) (us : List Upd) (c : Cfg) : Prop :=
  (∃ done, us = done ++ c.pending ∧
    ((c.wpc = 0 ∧ c.lock ≠ Holder.writer ∧ c.song = applyAll st0 done) ∨
     (c.wpc = 1 ∧ c.lock = Holder.writer ∧ c.song = applyAll st0 done ∧
       c.pending ≠ []) ∨
     (c.wpc = 2 ∧ c.lock = Holder.writer ∧
       ∃ u r2, c.pending = u :: r2 ∧ c.song = applyFirst u (applyAll st0 done)) ∨
     (c.wpc = 3 ∧ c.lock = Holder.writer ∧
       ∃ u r2, c.pending = u :: r2 ∧ c.song = applyUpd (applyAll st0 done) u))) ∧
  ((c.rpc = 0 ∧ c.lock ≠ Holder.reader) ∨
   (1 ≤ c.rpc ∧ c.rpc ≤ 6 ∧ c.lock = Holder.reader ∧
     (2 ≤ c.rpc → c.track = some c.song.track_name) ∧
     (3 ≤ c.rpc → c.artist = some c.song.comment) ∧
     (4 ≤ c.rpc → c.album = some c.song.album) ∧
     (5 ≤ c.rpc → c.pict = some c.song.picture_file) ∧
     (6 ≤ c.rpc → c.lu = some c.song.last_update)) ∨
   (c.rpc = 7 ∧ c.lock ≠ Holder.reader ∧
     ∃ k, k ≤ us.length ∧
       c.track = some (applyAll st0 (us.take k)).track_name ∧
       c.artist = some (applyAll st0 (us.take k)).comment ∧
       c.album = some (applyAll st0 (us.take k)).album ∧
       c.pict = some (applyAll st0 (us.take k)).picture_file ∧
       c.lu = some (applyAll st0 (us.take k)).last_update))

/-- The writer thread preserves the invariant. -/
theorem stepW_inv (st0 : SongState) (us : List Upd) (c : Cfg)
    (h : CfgInv st0 us c) : CfgInv st0 us (stepW c) := by
  obtain ⟨⟨done, hsplit, hw⟩, hr⟩ := h
  rcases hw with ⟨h0, hlk, hsong⟩ | ⟨h1, hlk, hsong, hne⟩ | ⟨h2, hlk, u, r2, hp, hsong⟩ |
    ⟨h3, hlk, u, r2, hp, hsong⟩
  · cases hpend : c.pending with
    | nil =>
      have hstep : stepW c = c := by simp [stepW, h0, hpend]
      rw [hstep]
      exact ⟨⟨done, hsplit, Or.inl ⟨h0, hlk, hsong⟩⟩, hr⟩
    | cons u r2 =>
      by_cases hfree : c.lock = Holder.free
      · have hstep : stepW c = { c with lock := Holder.writer, wpc := 1 } := by
          simp [stepW, h0, hpend, hfree]
        rw [hstep]
        constructor
        · exact ⟨done, hsplit, Or.inr (Or.inl ⟨rfl, rfl, hsong, by simp [hpend]⟩)⟩
        · rcases hr with ⟨hr0, _⟩ | ⟨_, _, hrl, _⟩ | ⟨hr7, _, hsnap⟩
          · exact Or.inl ⟨hr0, by simp⟩
          · rw [hfree] at hrl
            cases hrl
          · exact Or.inr (Or.inr ⟨hr7, by simp, hsnap⟩)
      · have hstep : stepW c = c := by simp [stepW, h0, hpend, hfree]
        rw [hstep]
        exact ⟨⟨done, hsplit, Or.inl ⟨h0, hlk, hsong⟩⟩, hr⟩
  · cases hpend : c.pending with
    | nil => exact absurd hpend hne
    | cons u r2 =>
      have hstep : stepW c = { c with song := applyFirst u c.song, wpc := 2 } := by
        simp [stepW, h1, hpend]
      rw [hstep]
      constructor
      · exact ⟨done, hsplit,
          Or.inr (Or.inr (Or.inl ⟨rfl, hlk, u, r2, by simp [hpend], by simp [hsong]⟩))⟩
      · rcases hr with ⟨hr0, _⟩ | ⟨_, _, hrl, _⟩ | ⟨hr7, _, hsnap⟩
        · exact Or.inl ⟨hr0, by simp [hlk]⟩
        · rw [hlk] at hrl
          cases hrl
        · exact Or.inr (Or.inr ⟨hr7, by simp [hlk], hsnap⟩)
  · have hstep : stepW c = { c with song := applySecond u c.song, wpc := 3 } := by
      simp [stepW, h2, hp]
    rw [hstep]
    constructor
    · exact ⟨done, hsplit,
        Or.inr (Or.inr (Or.inr ⟨rfl, hlk, u, r2, by simp [hp], by simp [applyUpd, hsong]⟩))⟩
    · rcases hr with ⟨hr0, _⟩ | ⟨_, _, hrl, _⟩ | ⟨hr7, _, hsnap⟩
      · exact Or.inl ⟨hr0, by simp [hlk]⟩
      · rw [hlk] at hrl
        cases hrl
      · exact Or.inr (Or.inr ⟨hr7, by simp [hlk], hsnap⟩)
  · have hstep : stepW c = { c with lock := Holder.free, wpc := 0, pending := r2 } := by
      simp [stepW, h3, hp]
    rw [hstep]
    constructor
    · refine ⟨done ++ [u], ?_, Or.inl ⟨rfl, by simp, ?_⟩⟩
      · simp [hsplit, hp]
      · simp [applyAll, List.foldl_append]
        simpa [applyAll] using hsong
    · rcases hr with ⟨hr0, _⟩ | ⟨_, _, hrl, _⟩ | ⟨hr7, _, hsnap⟩
      · exact Or.inl ⟨hr0, by simp⟩
      · rw [hlk] at hrl
        cases hrl
      · exact Or.inr (Or.inr ⟨hr7, by simp, hsnap⟩)

/-- The reader thread preserves the invariant. -/
theorem stepR_inv (st0 : SongState) (us : List Upd) (c : Cfg)
    (h : CfgInv st0 us c) : CfgInv st0 us (stepR c) := by
  obtain ⟨⟨done, hsplit, hw⟩, hr⟩ := h
  rcases hr with ⟨hr0, hrl⟩ | ⟨hge, hle, hrl, f2, f3, f4, f5, f6⟩ | ⟨hr7, hrl, hsnap⟩
  · by_cases hfree : c.lock = Holder.free
    · have hstep : stepR c = { c with lock := Holder.reader, rpc := 1 } := by
        simp [stepR, hr0, hfree]
      rw [hstep]
      constructor
      · rcases hw with ⟨h0, hlk, hsong⟩ | ⟨_, hlk, _, _⟩ | ⟨_, hlk, _⟩ | ⟨_, hlk, _⟩
        · exact ⟨done, hsplit, Or.inl ⟨h0, by simp, hsong⟩⟩
        · rw [hfree] at hlk
          cases hlk
        · rw [hfree] at hlk
          cases hlk
        · rw [hfree] at hlk
          cases hlk
      · exact Or.inr (Or.inl ⟨Nat.le_refl 1, by simp, rfl,
          fun hx => absurd hx (by simp), fun hx => absurd hx (by simp),
          fun hx => absurd hx (by simp), fun hx => absurd hx (by simp),
          fun hx => absurd hx (by simp)⟩)
    · have hstep : stepR c = c := by simp [stepR, hr0, hfree]
      rw [hstep]
      exact ⟨⟨done, hsplit, hw⟩, Or.inl ⟨hr0, hrl⟩⟩
  · have hw0 : c.wpc = 0 ∧ c.song = applyAll st0 done := by
      rcases hw with ⟨h0, _, hsong⟩ | ⟨_, hlk, _, _⟩ | ⟨_, hlk, _⟩ | ⟨_, hlk, _⟩
      · exact ⟨h0, hsong⟩
      · rw [hrl] at hlk
        cases hlk
      · rw [hrl] at hlk
        cases hlk
      · rw [hrl] at hlk
        cases hlk
    have hrc : c.rpc = 1 ∨ c.rpc = 2 ∨ c.rpc = 3 ∨ c.rpc = 4 ∨ c.rpc = 5 ∨ c.rpc = 6 := by
      omega
    rcases hrc with hx | hx | hx | hx | hx | hx
    · have hstep : stepR c = { c with track := some c.song.track_name, rpc := 2 } := by
        simp [stepR, hx]
      rw [hstep]
      refine ⟨⟨done, hsplit, Or.inl ⟨hw0.1, by simp [hrl], hw0.2⟩⟩,
        Or.inr (Or.inl ⟨by simp, by simp, hrl, fun _ => rfl,
          fun hy => absurd hy (by simp), fun hy => absurd hy (by simp),
          fun hy => absurd hy (by simp), fun hy => absurd hy (by simp)⟩)⟩
    · have hstep : stepR c = { c with artist := some c.song.comment, rpc := 3 } := by
        simp [stepR, hx]
      rw [hstep]
      refine ⟨⟨done, hsplit, Or.inl ⟨hw0.1, by simp [hrl], hw0.2⟩⟩,
        Or.inr (Or.inl ⟨by simp, by simp, hrl, fun _ => f2 (by omega),
          fun _ => rfl, fun hy => absurd hy (by simp),
          fun hy => absurd hy (by simp), fun hy => absurd hy (by simp)⟩)⟩
    · have hstep : stepR c = { c with album := some c.song.album, rpc := 4 } := by
        simp [stepR, hx]
      rw [hstep]
      refine ⟨⟨done, hsplit, Or.inl ⟨hw0.1, by simp [hrl], hw0.2⟩⟩,
        Or.inr (Or.inl ⟨by simp, by simp, hrl, fun _ => f2 (by omega),
          fun _ => f3 (by omega), fun _ => rfl,
          fun hy => absurd hy (by simp), fun hy => absurd hy (by simp)⟩)⟩
    · have hstep : stepR c = { c with pict := some c.song.picture_file, rpc := 5 } := by
        simp [stepR, hx]
      rw [hstep]
      refine ⟨⟨done, hsplit, Or.inl ⟨hw0.1, by simp [hrl], hw0.2⟩⟩,
        Or.inr (Or.inl ⟨by simp, by simp, hrl, fun _ => f2 (by omega),
          fun _ => f3 (by omega), fun _ => f4 (by omega), fun _ => rfl,
          fun hy => absurd hy (by simp)⟩)⟩
    · have hstep : stepR c = { c with lu := some c.song.last_update, rpc := 6 } := by
        simp [stepR, hx]
      rw [hstep]
      refine ⟨⟨done, hsplit, Or.inl ⟨hw0.1, by simp [hrl], hw0.2⟩⟩,
        Or.inr (Or.inl ⟨by simp, by simp, hrl, fun _ => f2 (by omega),
          fun _ => f3 (by omega), fun _ => f4 (by omega), fun _ => f5 (by omega),
          fun _ => rfl⟩)⟩
    · have hstep : stepR c = { c with lock := Holder.free, rpc := 7 } := by
        simp [stepR, hx]
      rw [hstep]
      have hksplit : us.take done.length = done := by
        rw [hsplit]
        exact List.take_left done c.pending
      have hklen : done.length ≤ us.length := by
        rw [hsplit, List.length_append]
        omega
      refine ⟨⟨done, hsplit, Or.inl ⟨hw0.1, by simp, hw0.2⟩⟩,
        Or.inr (Or.inr ⟨rfl, by simp, done.length, hklen, ?_, ?_, ?_, ?_, ?_⟩)⟩
      · rw [hksplit, ← hw0.2]
        exact f2 (by omega)
      · rw [hksplit, ← hw0.2]
        exact f3 (by omega)
      · rw [hksplit, ← hw0.2]
        exact f4 (by omega)
      · rw [hksplit, ← hw0.2]
        exact f5 (by omega)
      · rw [hksplit, ← hw0.2]
        exact f6 (by omega)
  · have hstep : stepR c = c := by simp [stepR, hr7]
    rw [hstep]
    exact ⟨⟨done, hsplit, hw⟩, Or.inr (Or.inr ⟨hr7, hrl, hsnap⟩)⟩

/-- The invariant is preserved by any schedule. -/
theorem runSched_inv (st0 : SongState) (us : List Upd) (sched : List Bool) :
    ∀ c, CfgInv st0 us c → CfgInv st0 us (runSched c sched) := by
  induction sched with
  | nil => intro c hc; exact hc
  | cons b s ih =>
    intro c hc
    simp only [runSched]
    cases b
    · exact ih _ (stepR_inv st0 us c hc)
    · exact ih _ (stepW_inv st0 us c hc)

/-- The invariant holds initially. -/
theorem initCfg_inv (st0 : SongState) (us : List Upd) :
    CfgInv st0 us (initCfg st0 us) := by
  constructor
  · exact ⟨[], rfl, Or.inl ⟨rfl, by simp [initCfg], rfl⟩⟩
  · exact Or.inl ⟨rfl, by simp [initCfg]⟩

/-- Claim C9: under the single `buffer_lock` discipline — the writer holds
the lock across both assignments of an update, the reader holds it across
all five field copies — every interleaving in which the reader completes
its snapshot observes exactly the field values of the state reached after
some whole number of complete updates: no mixture of pre- and post-write
values from any update. -/
theorem snapshot_consistent (st0 : SongState) (us : List Upd) (sched : List Bool)
    (hdone : (runSched (initCfg st0 us) sched).rpc = 7) :
    ∃ k, k ≤ us.length ∧
      (runSched (initCfg st0 us) sched).track
        = some (applyAll st0 (us.take k)).track_name ∧
      (runSched (initCfg st0 us) sched).artist
        = some (applyAll st0 (us.take k)).comment ∧
      (runSched (initCfg st0 us) sched).album
        = some (applyAll st0 (us.take k)).album ∧
      (runSched (initCfg st0 us) sched).pict
        = some (applyAll st0 (us.take k)).picture_file ∧
      (runSched (initCfg st0 us) sched).lu
        = some (applyAll st0 (us.take k)).last_update := by
  have hinv := runSched_inv st0 us sched (initCfg st0 us) (initCfg_inv st0 us)
  rcases hinv.2 with ⟨h0, _⟩ | ⟨_, hle, _⟩ | ⟨_, _, k, hk, e1, e2, e3, e4, e5⟩
  · omega
  · omega
  · exact ⟨k, hk, e1, e2, e3, e4, e5⟩

/-- A schedule interleaving one full writer update with a complete reader
snapshot. -/
def demoSched : List Bool :=
  [true, true, true, true, false, false, false, false, false, false, false]

/-- A single text update for the demonstration schedule. -/
def demoUpds : List Upd := [Upd.text "track_name" "A" 5]

/-- Witness for C9: on the demonstration schedule the reader finishes and
its snapshot matches a whole number of completed updates. -/
theorem snapshot_consistent_witness :
    ∃ k, k ≤ demoUpds.length ∧
      (runSched (initCfg current_song_init demoUpds) demoSched).track
        = some (applyAll current_song_init (demoUpds.take k)).track_name ∧
      (runSched (initCfg current_song_init demoUpds) demoSched).artist
        = some (applyAll current_song_init (demoUpds.take k)).comment ∧
      (runSched (initCfg current_song_init demoUpds) demoSched).album
        = some (applyAll current_song_init (demoUpds.take k)).album ∧
      (runSched (initCfg current_song_init demoUpds) demoSched).pict
        = some (applyAll current_song_init (demoUpds.take k)).picture_file ∧
      (runSched (initCfg current_song_init demoUpds) demoSched).lu
        = some (applyAll current_song_init (demoUpds.take k)).last_update :=
  snapshot_consistent current_song_init demoUpds demoSched (by decide)
